import Mathlib

/-!
Verification of the cluster behavioral monitor-test core.

Part one embeds the required-SCC annotation checker
(`requiredsccmonitortests`): its `CollectData` pass lists namespaces, filters
them to the permanent platform scope, classifies every pod of an in-scope
namespace by its validated/required SCC annotations, and renders the
violations as JUnit test cases using the flake-pair convention.

Part two embeds the API-server disruption tolerance model
(`allowedAPIServerDisruption`): from the control-plane topology, the
infrastructure provider and the 4.8 version-baseline check it selects a
tolerated disruption fraction and multiplies it into the total run duration.

Go maps are embedded as association lists or option-valued functions, Go
errors as `Except String`, and the mutable accumulation loops as structural
recursion over lists.
-/

/-- Annotation key `securityv1.RequiredSCCAnnotation`, from the OpenShift
security API (a dependency of the repository, not part of it). Only its
identity matters to the checker; the literal value is the upstream one. -/
def requiredSCCAnnotationKey : String := "openshift.io/required-scc"

/-- Annotation key `securityv1.ValidatedSCCAnnotation`, from the OpenShift
security API (a dependency of the repository, not part of it). -/
def validatedSCCAnnotationKey : String := "openshift.io/scc"

/-- The set `defaultSCCs` of well-known SCC names. -/
def defaultSCCs : List String :=
  [ "anyuid", "hostaccess", "hostmount-anyuid", "hostnetwork", "hostnetwork-v2",
    "nonroot", "nonroot-v2", "privileged", "restricted", "restricted-v2"]

/-- The map `nonStandardSCCNamespaces`: for a non-standard SCC name, the set of
namespaces in which it is allowed. A Go map lookup `m[k]` with its
`ok` second result is embedded as an `Option`; both sets are singletons, so the
unordered `sets.Set` is embedded as a list without loss. -/
def nonStandardSCCNamespaces (validatedSCC : String) : Option (List String) :=
  if validatedSCC == "node-exporter" then some ["openshift-monitoring"]
  else if validatedSCC == "machine-api-termination-handler" then
    some ["openshift-machine-api"]
  else none

/-- One entry of `pod.OwnerReferences`: the fields the checker reads. -/
structure OwnerReference where
  kind : String
  name : String
  deriving DecidableEq, Repr

/-- The fields of a pod that `CollectData` reads. Annotations are an
association list standing for the Go `map[string]string` (first match wins;
cluster objects carry each key at most once). -/
structure Pod where
  name : String
  annotations : List (String × String)
  ownerReferences : List OwnerReference
  deriving DecidableEq, Repr

/-- Lookup of `pod.Annotations[key]` together with presence: `none` when the
key is absent. -/
def annotationLookup (annotations : List (String × String)) (key : String) :
    Option String :=
  (annotations.find? (fun kv => kv.1 == key)).map (fun kv => kv.2)

/-- The helper `ownerReferences(pod)`: a human-readable owner summary,
`kind/name` with the kind lower-cased, comma-joined, wrapped in
" (owners: ...)"; the empty string when the pod has no owner references. -/
def ownerReferences (pod : Pod) : String :=
  let ownerRefs := pod.ownerReferences.map (fun r => r.kind.toLower ++ "/" ++ r.name)
  if ownerRefs.length > 0 then
    " (owners: " ++ String.intercalate ", " ownerRefs ++ ")"
  else ""

/-- The per-pod body of the classification loop in `CollectData`: `some msg`
when the loop appends the failure message `msg` for this pod, `none` when it
records nothing. Each iteration appends at most one message, so the Go
`failures = append(failures, ...)` branches become an `Option`. -/
def checkPod (nsName : String) (pod : Pod) : Option String :=
  let validatedSCC := (annotationLookup pod.annotations validatedSCCAnnotationKey).getD ""
  if (annotationLookup pod.annotations requiredSCCAnnotationKey).isSome then
    match nonStandardSCCNamespaces validatedSCC with
    | some allowedNamespaces =>
      if allowedNamespaces.contains nsName then none
      else
        some ("pod '" ++ pod.name ++ "' has a non-standard SCC '" ++ validatedSCC ++
          "' not allowed in namespace '" ++ nsName ++ "'; allowed namespaces are: " ++
          String.intercalate ", " allowedNamespaces)
    | none => none
  else
    let owners := ownerReferences pod
    if validatedSCC.length == 0 then
      some ("annotation missing from pod '" ++ pod.name ++ "'" ++ owners ++
        "; cannot suggest required-scc, no validated SCC on pod")
    else if defaultSCCs.contains validatedSCC then
      some ("annotation missing from pod '" ++ pod.name ++ "'" ++ owners ++
        "; suggested required-scc: '" ++ validatedSCC ++ "'")
    else
      match nonStandardSCCNamespaces validatedSCC with
      | some allowedNamespaces =>
        if allowedNamespaces.contains nsName then
          some ("annotation missing from pod '" ++ pod.name ++ "'" ++ owners ++
            "; suggested required-scc: '" ++ validatedSCC ++
            "', this is a non-standard SCC")
        else
          some ("annotation missing from pod '" ++ pod.name ++ "'" ++ owners ++
            "; pod is using non-standard SCC '" ++ validatedSCC ++
            "' not allowed in namespace '" ++ nsName ++ "'; allowed namespaces are: " ++
            String.intercalate ", " allowedNamespaces)
      | none =>
        some ("annotation missing from pod '" ++ pod.name ++ "'" ++ owners ++
          "; cannot suggest required-scc, validated SCC '" ++ validatedSCC ++
          "' is a custom SCC")

/-- The JUnit test-case name built for a namespace. -/
def testNameFor (nsName : String) : String :=
  "[sig-auth] all workloads in ns/" ++ nsName ++ " must set the '" ++
    requiredSCCAnnotationKey ++ "' annotation"

/-- The fields of `junitapi.JUnitTestCase` that `CollectData` writes. A `Pass`
is a case with `failureOutput = none`; a `Fail` carries the failure output. -/
structure JUnitTestCase where
  name : String
  systemOut : String := ""
  failureOutput : Option String := none
  deriving DecidableEq, Repr

/-- The per-namespace tail of the loop: the test cases appended for one
in-scope namespace, given its pod listing. Zero failures append one passing
case; otherwise a failing case holding the newline-joined messages and then a
passing case of the same name (the deliberate flake pair). -/
def namespaceJunits (nsName : String) (pods : List Pod) : List JUnitTestCase :=
  let failures := pods.filterMap (checkPod nsName)
  let testName := testNameFor nsName
  if failures.isEmpty then [{ name := testName }]
  else
    let failureMsg := String.intercalate "\n" failures
    [ { name := testName, systemOut := failureMsg, failureOutput := some failureMsg },
      { name := testName }]

/-- `strings.HasPrefix(s, p)`: whether `p` is a prefix of `s`, embedded on the
character lists of the two strings. -/
def hasPrefixStr (s p : String) : Bool :=
  p.data.isPrefixOf s.data

/-- The Go skip condition on a namespace name: not `kube-` prefixed, not
`default`, and not a permanent OpenShift namespace. `isPermanentOpenShiftNamespace`
is inlined exactly as the source computes it. -/
def skipNamespace (nsName : String) : Bool :=
  !(hasPrefixStr nsName "kube-") && nsName != "default" &&
    !((nsName == "openshift" || hasPrefixStr nsName "openshift-") &&
      !(hasPrefixStr nsName "openshift-must-gather-"))

/-- One namespace as `CollectData` sees it: its name and the outcome of
listing its pods (the listing happens only if the namespace is in scope). -/
structure NamespaceData where
  name : String
  podsList : Except String (List Pod)
  deriving Repr

/-- The namespace loop of `CollectData`: skips out-of-scope namespaces,
propagates a pod-listing error (discarding every test case built so far, as
the Go `return nil, nil, err` does), and otherwise appends the namespace's
test cases. -/
def collectNamespaces : List NamespaceData → Except String (List JUnitTestCase)
  | [] => .ok []
  | ns :: rest =>
    if skipNamespace ns.name then collectNamespaces rest
    else
      match ns.podsList with
      | .error e => .error e
      | .ok pods =>
        match collectNamespaces rest with
        | .error e => .error e
        | .ok js => .ok (namespaceJunits ns.name pods ++ js)

/-- Placeholder for `monitorapi.Intervals`: `CollectData` never produces one. -/
structure MonitorInterval where
  message : String
  deriving DecidableEq, Repr

/-- The state `CollectData` starts from: whether `StartCollection` left a
non-nil `kubeClient`, and the outcome of the namespace listing. -/
structure ClientState where
  kubeClientInitialized : Bool
  namespacesList : Except String (List NamespaceData)
  deriving Repr

/-- `CollectData` of the required-SCC checker: a nil client is a silent no-op;
a namespace-listing error is returned as the error with nothing else; otherwise
the namespace loop runs. The Go triple `(intervals, junits, err)` is embedded
as `Except` over the pair, the error position being mutually exclusive with
the data in every return of the source. -/
def CollectData (s : ClientState) :
    Except String (List MonitorInterval × List JUnitTestCase) :=
  if s.kubeClientInitialized = false then .ok ([], [])
  else
    match s.namespacesList with
    | .error e => .error e
    | .ok nss =>
      match collectNamespaces nss with
      | .error e => .error e
      | .ok js => .ok ([], js)

/-- The spec's ComplianceVerdict for one object. `missingAnnotationSuggest`
carries whether the suggestion comes with the non-standard note;
`missingAnnotationNoSuggestion` carries `none` for "no validated value on
object" and `some v` for "custom/unrecognized validated value v". -/
inductive ComplianceVerdict where
  | ok : ComplianceVerdict
  | missingAnnotationSuggest (value : String) (nonStandardNote : Bool) : ComplianceVerdict
  | missingAnnotationNoSuggestion (customValue : Option String) : ComplianceVerdict
  | nonStandardScopeViolation (value : String) (allowedNamespaces : List String) :
      ComplianceVerdict
  deriving DecidableEq, Repr

/-- Modelled from the spec: the per-object decision tree of the Compliance
Classifier, transcribed rule for rule (ordered, first match wins) from its
five numbered branches, to be compared with the code's `checkPod`. -/
def specClassify (nsName : String) (requiredPresent : Bool) (validated : String) :
    ComplianceVerdict :=
  if requiredPresent then
    match nonStandardSCCNamespaces validated with
    | some allowed =>
      if allowed.contains nsName then .ok
      else .nonStandardScopeViolation validated allowed
    | none => .ok
  else if validated = "" then .missingAnnotationNoSuggestion none
  else if defaultSCCs.contains validated then .missingAnnotationSuggest validated false
  else
    match nonStandardSCCNamespaces validated with
    | some allowed =>
      if allowed.contains nsName then .missingAnnotationSuggest validated true
      else .nonStandardScopeViolation validated allowed
    | none => .missingAnnotationNoSuggestion (some validated)

/-- The message the source emits for a verdict, for the pod it is about:
`none` for no violation recorded. The required-present and required-absent
scope violations are worded differently in the source, so the rendering reads
the required annotation's presence off the pod. -/
def renderVerdict (nsName : String) (pod : Pod) (v : ComplianceVerdict) :
    Option String :=
  let owners := ownerReferences pod
  match v with
  | .ok => none
  | .missingAnnotationNoSuggestion none =>
    some ("annotation missing from pod '" ++ pod.name ++ "'" ++ owners ++
      "; cannot suggest required-scc, no validated SCC on pod")
  | .missingAnnotationNoSuggestion (some value) =>
    some ("annotation missing from pod '" ++ pod.name ++ "'" ++ owners ++
      "; cannot suggest required-scc, validated SCC '" ++ value ++
      "' is a custom SCC")
  | .missingAnnotationSuggest value false =>
    some ("annotation missing from pod '" ++ pod.name ++ "'" ++ owners ++
      "; suggested required-scc: '" ++ value ++ "'")
  | .missingAnnotationSuggest value true =>
    some ("annotation missing from pod '" ++ pod.name ++ "'" ++ owners ++
      "; suggested required-scc: '" ++ value ++ "', this is a non-standard SCC")
  | .nonStandardScopeViolation value allowed =>
    if (annotationLookup pod.annotations requiredSCCAnnotationKey).isSome then
      some ("pod '" ++ pod.name ++ "' has a non-standard SCC '" ++ value ++
        "' not allowed in namespace '" ++ nsName ++ "'; allowed namespaces are: " ++
        String.intercalate ", " allowed)
    else
      some ("annotation missing from pod '" ++ pod.name ++ "'" ++ owners ++
        "; pod is using non-standard SCC '" ++ value ++
        "' not allowed in namespace '" ++ nsName ++ "'; allowed namespaces are: " ++
        String.intercalate ", " allowed)

/-- The validated-SCC value of a pod as the source reads it: the annotation's
value, or the empty string when absent (Go map indexing). -/
def validatedOf (pod : Pod) : String :=
  (annotationLookup pod.annotations validatedSCCAnnotationKey).getD ""

/-- Whether the required-scc annotation is present on a pod. -/
def requiredPresentOn (pod : Pod) : Bool :=
  (annotationLookup pod.annotations requiredSCCAnnotationKey).isSome

/-- Control-plane topology modes of `apiconfigv1.TopologyMode` that the
tolerance model distinguishes. -/
inductive TopologyMode where
  | SingleReplica : TopologyMode
  | HighlyAvailable : TopologyMode
  | External : TopologyMode
  deriving DecidableEq, Repr

/-- The cluster-facing inputs of `allowedAPIServerDisruption`: the outcome of
fetching the Infrastructure resource (giving the control-plane topology), the
configured provider name compared by `framework.ProviderIs`, and the outcome
of the `AllClusterVersionsAreGTE(4.8)` check. -/
structure ClusterState where
  infrastructureGet : Except String TopologyMode
  provider : String
  versionCheck : Except String Bool
  deriving Repr

/-- Modelled from the spec: `util.AllClusterVersionsAreGTE` is not among the
repository files; per the spec a failed fetch is treated as "could not verify
fix baseline", i.e. the flag the caller keeps is false, and only a caveat is
logged. -/
def hasAllFixesOf : Except String Bool → Bool
  | .ok b => b
  | .error _ => false

/-- `getTopologies`: fetches the Infrastructure resource and hands back its
control-plane topology. On a fetch error the source calls
`framework.ExpectNoError`, which fails the test immediately, embedded here as
propagating the error. -/
def getTopologies (c : ClusterState) : Except String TopologyMode :=
  c.infrastructureGet

/-- `framework.ProviderIs` specialised to one name: whether the configured
provider is that name. -/
def providerIs (c : ClusterState) (name : String) : Bool :=
  c.provider == name

/-- The tolerated disruption fraction chosen by the switch in
`allowedAPIServerDisruption`: 0.08 by default; 0.15 on single-replica control
planes, 0.23 when additionally on azure; 0 on azure, aws or gce when every
cluster version is at least 4.8. -/
def toleratedDisruption (c : ClusterState) (controlPlaneTopology : TopologyMode)
    (hasAllFixes : Bool) : ℚ :=
  if controlPlaneTopology = .SingleReplica then
    if providerIs c "azure" then 0.23 else 0.15
  else if providerIs c "azure" || providerIs c "aws" || providerIs c "gce" then
    if hasAllFixes then 0 else 0.08
  else 0.08

/-- `allowedAPIServerDisruption`: the allowed disruption, in nanoseconds, for
a run of `totalDurationNs` nanoseconds. The version-check error is only
logged; the topology fetch error aborts (through `ExpectNoError` inside
`getTopologies`). The Go `int64(float64(ns) * fraction)` truncation is
embedded as the floor of the exact rational product (the operands coincide at
run-scale durations, and every fraction is nonnegative, so truncation toward
zero is the floor). -/
def allowedAPIServerDisruption (c : ClusterState) (totalDurationNs : ℕ) :
    Except String ℤ :=
  let hasAllFixes := hasAllFixesOf c.versionCheck
  match getTopologies c with
  | .error e => .error e
  | .ok controlPlaneTopology =>
    .ok ⌊(totalDurationNs : ℚ) * toleratedDisruption c controlPlaneTopology hasAllFixes⌋

/-- A pod with no annotations and no owners, as in the spec's scenario A. -/
def scenarioPod : Pod := ⟨"mypod", [], []⟩

/-- The namespace "kube-foo" holding only `scenarioPod` (scenario A). -/
def scenarioNamespace : NamespaceData := ⟨"kube-foo", .ok [scenarioPod]⟩

/-- C2: on a SingleReplica control plane the tolerance model returns the
fraction 0.15, except 0.23 on azure, whatever the version-baseline check said
(the rule has priority over the provider/baseline rule). -/
theorem toleratedDisruption_singleReplica (c : ClusterState) (hasAllFixes : Bool) :
    toleratedDisruption c .SingleReplica hasAllFixes =
      if c.provider = "azure" then (0.23 : ℚ) else (0.15 : ℚ) := by
  by_cases hp : c.provider = "azure" <;>
    simp [toleratedDisruption, providerIs, hp]

/-- C3: away from SingleReplica, the fraction is 0 exactly when the provider
is azure, aws or gce and the 4.8 baseline check passed; in every other case it
stays at the default 0.08. -/
theorem toleratedDisruption_nonSingleReplica (c : ClusterState)
    (cpt : TopologyMode) (hasAllFixes : Bool) (hcpt : cpt ≠ .SingleReplica) :
    toleratedDisruption c cpt hasAllFixes =
      if (c.provider = "azure" ∨ c.provider = "aws" ∨ c.provider = "gce") ∧
          hasAllFixes = true then (0 : ℚ)
      else (0.08 : ℚ) := by
  by_cases ha : c.provider = "azure" <;>
    by_cases hw : c.provider = "aws" <;>
      by_cases hg : c.provider = "gce" <;>
        cases hasAllFixes <;>
          simp [toleratedDisruption, providerIs, ha, hw, hg, hcpt]

theorem toleratedDisruption_nonSingleReplica_witness :
    (TopologyMode.HighlyAvailable ≠ TopologyMode.SingleReplica) ∧
      toleratedDisruption ⟨.ok .HighlyAvailable, "aws", .ok true⟩ .HighlyAvailable true =
        if (("aws" : String) = "azure" ∨ ("aws" : String) = "aws" ∨
            ("aws" : String) = "gce") ∧ (true = true) then (0 : ℚ)
        else (0.08 : ℚ) :=
  ⟨by decide,
    toleratedDisruption_nonSingleReplica ⟨.ok .HighlyAvailable, "aws", .ok true⟩
      .HighlyAvailable true (by decide)⟩

/-- C4, counterexample: a failed fetch of the Infrastructure topology aborts
`allowedAPIServerDisruption` — the error propagates (through `ExpectNoError`)
and no budget is returned, against the claim that a TopologyFacts fetch
failure never aborts the computation. -/
theorem allowedAPIServerDisruption_topology_error_aborts :
    allowedAPIServerDisruption
      ⟨.error "unable to determine cluster topology", "aws", .ok true⟩
      6000000000000 =
    .error "unable to determine cluster topology" := rfl

/-- C4, amended: a failure of the version-baseline check never aborts the
computation — it is treated as an unverified baseline (false) and a budget is
still returned by the remaining rules; a failure to fetch the topology
resource, by contrast, always propagates as an abort. -/
theorem allowedAPIServerDisruption_fetch_failures :
    (∀ (cpt : TopologyMode) (p e : String) (t : ℕ),
      allowedAPIServerDisruption ⟨.ok cpt, p, .error e⟩ t =
        .ok ⌊(t : ℚ) * toleratedDisruption ⟨.ok cpt, p, .error e⟩ cpt false⌋) ∧
    (∀ (p e : String) (vc : Except String Bool) (t : ℕ),
      allowedAPIServerDisruption ⟨.error e, p, vc⟩ t = .error e) :=
  ⟨fun _ _ _ _ => rfl, fun _ _ _ _ => rfl⟩

/-- C8: the allowed disruption duration is the total run duration times the
selected fraction (in whole nanoseconds, the fractional remainder truncated);
concretely, a 100-minute run (6000000000000 ns) on a SingleReplica, non-azure
cluster is allowed exactly 15 minutes (900000000000 ns) of disruption. -/
theorem allowedAPIServerDisruption_duration :
    (∀ (cpt : TopologyMode) (p : String) (vc : Except String Bool) (t : ℕ),
      allowedAPIServerDisruption ⟨.ok cpt, p, vc⟩ t =
        .ok ⌊(t : ℚ) * toleratedDisruption ⟨.ok cpt, p, vc⟩ cpt (hasAllFixesOf vc)⌋) ∧
    allowedAPIServerDisruption ⟨.ok .SingleReplica, "aws", .ok true⟩ 6000000000000 =
      .ok 900000000000 := by
  constructor
  · intro cpt p vc t; rfl
  · show Except.ok
        ⌊(6000000000000 : ℚ) *
          toleratedDisruption ⟨.ok .SingleReplica, "aws", .ok true⟩ .SingleReplica true⌋ =
      Except.ok (900000000000 : ℤ)
    have h15 : toleratedDisruption ⟨.ok .SingleReplica, "aws", .ok true⟩
        .SingleReplica true = (0.15 : ℚ) := by
      simp [toleratedDisruption, providerIs]
    rw [h15]
    norm_num

/-- C10: with the kube client left nil by `StartCollection`, `CollectData` is
a silent no-op: no intervals, no test cases, no error. -/
theorem collectData_nil_client (s : ClientState)
    (h : s.kubeClientInitialized = false) :
    CollectData s = .ok ([], []) := by
  simp [CollectData, h]

theorem collectData_nil_client_witness :
    (ClientState.mk false (.error "never listed")).kubeClientInitialized = false ∧
      CollectData ⟨false, .error "never listed"⟩ = .ok ([], []) :=
  ⟨rfl, collectData_nil_client ⟨false, .error "never listed"⟩ rfl⟩

/-- Helper: the namespace loop returns the error of the first in-scope
namespace whose pod listing fails, when every earlier namespace was either
skipped or listed successfully. -/
theorem collectNamespaces_error_of_failing (pre : List NamespaceData)
    (nsd : NamespaceData) (post : List NamespaceData) (e : String)
    (hpre : ∀ x ∈ pre, skipNamespace x.name = true ∨ ∃ ps, x.podsList = .ok ps)
    (hscope : skipNamespace nsd.name = false)
    (herr : nsd.podsList = .error e) :
    collectNamespaces (pre ++ nsd :: post) = .error e := by
  induction pre with
  | nil => simp [collectNamespaces, hscope, herr]
  | cons x pre ih =>
    have hrest : ∀ y ∈ pre, skipNamespace y.name = true ∨ ∃ ps, y.podsList = .ok ps :=
      fun y hy => hpre y (List.mem_cons_of_mem _ hy)
    have htail := ih hrest
    by_cases hs : skipNamespace x.name = true
    · simpa [collectNamespaces, hs] using htail
    · have hs' : skipNamespace x.name = false := by simpa using hs
      rcases hpre x (List.mem_cons_self _ _) with hskip | ⟨ps, hps⟩
      · exact absurd hskip hs
      · simp [collectNamespaces, hs', hps, htail]

/-- C9: with an initialized client, a failed namespace listing makes
`CollectData` return exactly that error, and a failed pod listing of the first
in-scope namespace whose listing fails makes it return that error — in both
cases with no intervals and no test cases at all, the work of already
processed namespaces discarded rather than reported. -/
theorem collectData_listing_error (s : ClientState)
    (hinit : s.kubeClientInitialized = true) :
    (∀ e, s.namespacesList = .error e → CollectData s = .error e) ∧
    (∀ (pre : List NamespaceData) (nsd : NamespaceData) (post : List NamespaceData)
        (e : String),
      s.namespacesList = .ok (pre ++ nsd :: post) →
      (∀ x ∈ pre, skipNamespace x.name = true ∨ ∃ ps, x.podsList = .ok ps) →
      skipNamespace nsd.name = false → nsd.podsList = .error e →
      CollectData s = .error e) := by
  constructor
  · intro e he
    simp [CollectData, hinit, he]
  · intro pre nsd post e hns hpre hscope herr
    simp [CollectData, hinit, hns,
      collectNamespaces_error_of_failing pre nsd post e hpre hscope herr]

theorem collectData_listing_error_witness :
    (ClientState.mk true
        (.ok [⟨"kube-a", .ok []⟩, ⟨"kube-b", .error "pods failed"⟩])).kubeClientInitialized =
          true ∧
      CollectData ⟨true, .ok [⟨"kube-a", .ok []⟩, ⟨"kube-b", .error "pods failed"⟩]⟩ =
        .error "pods failed" :=
  ⟨rfl,
    (collectData_listing_error
        ⟨true, .ok [⟨"kube-a", .ok []⟩, ⟨"kube-b", .error "pods failed"⟩]⟩ rfl).2
      [⟨"kube-a", .ok []⟩] ⟨"kube-b", .error "pods failed"⟩ [] "pods failed" rfl
      (by
        intro x hx
        rw [List.mem_singleton] at hx
        subst hx
        exact Or.inr ⟨[], rfl⟩)
      (by decide) rfl⟩

/-- Helper: a string has length zero exactly when it is empty. -/
theorem string_length_zero_iff (s : String) : s.length = 0 ↔ s = "" := by
  constructor
  · intro h
    exact String.ext (List.length_eq_zero.mp h)
  · intro h
    subst h
    rfl

/-- C5: for a pod lacking the required-scc annotation, the code's
classification agrees, branch for branch, with the spec's ordered decision
tree on the validated value (empty, default set, allow-list with namespace
allowed or not, custom), each verdict rendered as the source's message. -/
theorem checkPod_required_absent_spec (nsName : String) (pod : Pod)
    (h : requiredPresentOn pod = false) :
    checkPod nsName pod =
      renderVerdict nsName pod (specClassify nsName false (validatedOf pod)) := by
  have h' : (annotationLookup pod.annotations requiredSCCAnnotationKey).isSome = false := h
  simp only [checkPod, specClassify, renderVerdict, validatedOf, requiredPresentOn, h',
    Bool.false_eq_true, if_false]
  generalize (annotationLookup pod.annotations validatedSCCAnnotationKey).getD "" = v
  by_cases hv : v = ""
  · simp [hv]
  · have hlen : (v.length == 0) = false := by
      simp [beq_iff_eq, string_length_zero_iff, hv]
    by_cases hdef : v ∈ defaultSCCs
    · simp [hlen, hdef, hv]
    · cases hm : nonStandardSCCNamespaces v with
      | none => simp [hlen, hdef, hm, hv]
      | some allowed =>
        by_cases hns : nsName ∈ allowed
        · simp [hlen, hdef, hm, hns, hv]
        · simp [hlen, hdef, hm, hns, hv, h']

theorem checkPod_required_absent_spec_witness :
    requiredPresentOn ⟨"mypod", [(validatedSCCAnnotationKey, "node-exporter")], []⟩ = false ∧
      checkPod "openshift-machine-api"
          ⟨"mypod", [(validatedSCCAnnotationKey, "node-exporter")], []⟩ =
        renderVerdict "openshift-machine-api"
          ⟨"mypod", [(validatedSCCAnnotationKey, "node-exporter")], []⟩
          (specClassify "openshift-machine-api" false
            (validatedOf ⟨"mypod", [(validatedSCCAnnotationKey, "node-exporter")], []⟩)) :=
  ⟨rfl, checkPod_required_absent_spec _ _ rfl⟩

/-- C6: for a pod carrying the required-scc annotation, the code's verdict
agrees with the spec's rule one — OK in every case except a validated value in
the allow-list map with the namespace outside its allowed set, which is the
scope violation; in particular a validated value outside the map is always OK
(no message recorded), whatever the namespace. -/
theorem checkPod_required_present_spec (nsName : String) (pod : Pod)
    (h : requiredPresentOn pod = true) :
    checkPod nsName pod =
        renderVerdict nsName pod (specClassify nsName true (validatedOf pod)) ∧
      (nonStandardSCCNamespaces (validatedOf pod) = none →
        checkPod nsName pod = none) := by
  have h' : (annotationLookup pod.annotations requiredSCCAnnotationKey).isSome = true := h
  constructor
  · simp only [checkPod, specClassify, renderVerdict, validatedOf, h', if_true]
    generalize (annotationLookup pod.annotations validatedSCCAnnotationKey).getD "" = v
    cases hm : nonStandardSCCNamespaces v with
    | none => simp [hm]
    | some allowed =>
      by_cases hns : nsName ∈ allowed
      · simp [hm, hns]
      · simp [hm, hns, h']
  · intro hm
    simp only [validatedOf] at hm
    simp [checkPod, h', hm]

theorem checkPod_required_present_spec_witness :
    requiredPresentOn
        ⟨"mypod",
          [(requiredSCCAnnotationKey, "restricted-v2"),
            (validatedSCCAnnotationKey, "my-custom-scc")], []⟩ = true ∧
      (checkPod "kube-system"
          ⟨"mypod",
            [(requiredSCCAnnotationKey, "restricted-v2"),
              (validatedSCCAnnotationKey, "my-custom-scc")], []⟩ =
          renderVerdict "kube-system"
            ⟨"mypod",
              [(requiredSCCAnnotationKey, "restricted-v2"),
                (validatedSCCAnnotationKey, "my-custom-scc")], []⟩
            (specClassify "kube-system" true
              (validatedOf
                ⟨"mypod",
                  [(requiredSCCAnnotationKey, "restricted-v2"),
                    (validatedSCCAnnotationKey, "my-custom-scc")], []⟩)) ∧
        (nonStandardSCCNamespaces
            (validatedOf
              ⟨"mypod",
                [(requiredSCCAnnotationKey, "restricted-v2"),
                  (validatedSCCAnnotationKey, "my-custom-scc")], []⟩) = none →
          checkPod "kube-system"
              ⟨"mypod",
                [(requiredSCCAnnotationKey, "restricted-v2"),
                  (validatedSCCAnnotationKey, "my-custom-scc")], []⟩ = none)) :=
  ⟨rfl, checkPod_required_present_spec _ _ rfl⟩

/-- C7: a namespace is processed rather than skipped exactly when its name is
"default", has the "kube-" prefix, or is a permanent platform namespace (the
name "openshift" itself or an "openshift-" prefix that is not an
"openshift-must-gather-" prefix); a skipped namespace contributes nothing —
the loop on it equals the loop on the remaining namespaces, its pod listing
never consulted — while an in-scope one is processed. -/
theorem collectNamespaces_scope (nsd : NamespaceData) (rest : List NamespaceData) :
    (skipNamespace nsd.name = false ↔
      (nsd.name = "default" ∨ hasPrefixStr nsd.name "kube-" = true ∨
        ((nsd.name = "openshift" ∨ hasPrefixStr nsd.name "openshift-" = true) ∧
          hasPrefixStr nsd.name "openshift-must-gather-" = false))) ∧
    collectNamespaces (nsd :: rest) =
      (if skipNamespace nsd.name then collectNamespaces rest
       else
         match nsd.podsList with
         | .error e => .error e
         | .ok pods =>
           match collectNamespaces rest with
           | .error e => .error e
           | .ok js => .ok (namespaceJunits nsd.name pods ++ js)) := by
  refine ⟨?_, rfl⟩
  have hiff : skipNamespace nsd.name = false ↔
      ((nsd.name == "default") = true ∨ hasPrefixStr nsd.name "kube-" = true ∨
        (((nsd.name == "openshift") = true ∨
            hasPrefixStr nsd.name "openshift-" = true) ∧
          hasPrefixStr nsd.name "openshift-must-gather-" = false)) := by
    simp only [skipNamespace, bne]
    generalize hasPrefixStr nsd.name "kube-" = k
    generalize (nsd.name == "default") = d
    generalize (nsd.name == "openshift") = o
    generalize hasPrefixStr nsd.name "openshift-" = p
    generalize hasPrefixStr nsd.name "openshift-must-gather-" = m
    cases k <;> cases d <;> cases o <;> cases p <;> cases m <;> decide
  simpa [beq_iff_eq] using hiff

/-- Helper: the test-case name determines the namespace it was built for. -/
theorem testNameFor_inj {a b : String} (h : testNameFor a = testNameFor b) :
    a = b := by
  have hd := congrArg String.data h
  simp only [testNameFor, String.data_append] at hd
  exact String.ext (List.append_cancel_left
    (List.append_cancel_right (List.append_cancel_right
      (List.append_cancel_right hd))))

/-- Helper: every test case a namespace contributes carries that namespace's
test name. -/
theorem namespaceJunits_name (nsName : String) (pods : List Pod) :
    ∀ tc ∈ namespaceJunits nsName pods, tc.name = testNameFor nsName := by
  intro tc htc
  simp only [namespaceJunits] at htc
  split at htc
  · simp at htc
    subst htc
    rfl
  · simp at htc
    rcases htc with h1 | h1 <;> subst h1 <;> rfl

/-- Helper: every test case of a successful collection pass carries the test
name of one of the listed namespaces. -/
theorem collectNamespaces_names (nss : List NamespaceData) :
    ∀ js : List JUnitTestCase, collectNamespaces nss = .ok js →
      ∀ tc ∈ js, ∃ nsd ∈ nss, tc.name = testNameFor nsd.name := by
  induction nss with
  | nil =>
    intro js h tc htc
    simp only [collectNamespaces, Except.ok.injEq] at h
    subst h
    simp at htc
  | cons x rest ih =>
    intro js h tc htc
    by_cases hs : skipNamespace x.name = true
    · rw [show collectNamespaces (x :: rest) = collectNamespaces rest from by
        simp [collectNamespaces, hs]] at h
      obtain ⟨nsd, hmem, hname⟩ := ih js h tc htc
      exact ⟨nsd, List.mem_cons_of_mem _ hmem, hname⟩
    · have hs' : skipNamespace x.name = false := by simpa using hs
      simp only [collectNamespaces, hs', Bool.false_eq_true, if_false] at h
      cases hp : x.podsList with
      | error e => rw [hp] at h; cases h
      | ok pods =>
        rw [hp] at h
        cases hr : collectNamespaces rest with
        | error e => rw [hr] at h; cases h
        | ok js' =>
          rw [hr] at h
          have hjs : namespaceJunits x.name pods ++ js' = js := by
            exact Except.ok.inj h
          subst hjs
          rcases List.mem_append.mp htc with hl | hr2
          · exact ⟨x, List.mem_cons_self _ _, namespaceJunits_name _ _ tc hl⟩
          · obtain ⟨nsd, hmem, hname⟩ := ih js' hr tc hr2
            exact ⟨nsd, List.mem_cons_of_mem _ hmem, hname⟩

/-- C1: in a successful collection pass over namespaces with distinct names,
an in-scope namespace with a successful pod listing accounts for exactly these
test cases of its name in the whole output — one passing case when it has no
violation messages, and exactly two cases of the identical name when it has
some: first a failing case whose output is the newline-joined messages, then a
passing case (the flake pair); no other test case of the run uses that name. -/
theorem collectData_flake_pair
    (nss : List NamespaceData) (js : List JUnitTestCase)
    (nsd : NamespaceData) (pods : List Pod)
    (hok : collectNamespaces nss = .ok js)
    (hnodup : (nss.map NamespaceData.name).Nodup)
    (hmem : nsd ∈ nss)
    (hscope : skipNamespace nsd.name = false)
    (hpods : nsd.podsList = .ok pods) :
    js.filter (fun tc => tc.name == testNameFor nsd.name) =
      (if (pods.filterMap (checkPod nsd.name)).isEmpty then
        [{ name := testNameFor nsd.name }]
      else
        [ { name := testNameFor nsd.name,
            systemOut := String.intercalate "\n" (pods.filterMap (checkPod nsd.name)),
            failureOutput :=
              some (String.intercalate "\n" (pods.filterMap (checkPod nsd.name))) },
          { name := testNameFor nsd.name }]) := by
  have hrhs : (if (pods.filterMap (checkPod nsd.name)).isEmpty then
      ([{ name := testNameFor nsd.name }] : List JUnitTestCase)
    else
      [ { name := testNameFor nsd.name,
          systemOut := String.intercalate "\n" (pods.filterMap (checkPod nsd.name)),
          failureOutput :=
            some (String.intercalate "\n" (pods.filterMap (checkPod nsd.name))) },
        { name := testNameFor nsd.name }]) = namespaceJunits nsd.name pods := rfl
  rw [hrhs]
  induction nss generalizing js with
  | nil => simp at hmem
  | cons x rest ih =>
    have hx : x.name ∉ rest.map NamespaceData.name := by
      have := hnodup
      simp only [List.map_cons, List.nodup_cons] at this
      exact this.1
    have hrestnodup : (rest.map NamespaceData.name).Nodup := by
      have := hnodup
      simp only [List.map_cons, List.nodup_cons] at this
      exact this.2
    rcases List.mem_cons.mp hmem with heq | hmem'
    · subst heq
      simp only [collectNamespaces, hscope, Bool.false_eq_true, if_false] at hok
      rw [hpods] at hok
      cases hr : collectNamespaces rest with
      | error e => rw [hr] at hok; cases hok
      | ok js' =>
        rw [hr] at hok
        have hjs : namespaceJunits nsd.name pods ++ js' = js := Except.ok.inj hok
        subst hjs
        rw [List.filter_append]
        have hfa : (namespaceJunits nsd.name pods).filter
            (fun tc => tc.name == testNameFor nsd.name) =
            namespaceJunits nsd.name pods := by
          refine List.filter_eq_self.mpr ?_
          intro tc htc
          rw [namespaceJunits_name _ _ tc htc]
          exact beq_self_eq_true _
        have hfb : js'.filter (fun tc => tc.name == testNameFor nsd.name) = [] := by
          refine List.filter_eq_nil_iff.mpr ?_
          intro tc htc hcontra
          obtain ⟨nsd', hmem', hname'⟩ := collectNamespaces_names rest js' hr tc htc
          have : testNameFor nsd'.name = testNameFor nsd.name := by
            rw [← hname']
            exact beq_iff_eq.mp hcontra
          have : nsd'.name = nsd.name := testNameFor_inj this
          exact hx (this ▸ List.mem_map_of_mem NamespaceData.name hmem')
        rw [hfa, hfb, List.append_nil]
    · have hne : x.name ≠ nsd.name := by
        intro hcontra
        exact hx (hcontra ▸ List.mem_map_of_mem NamespaceData.name hmem')
      by_cases hs : skipNamespace x.name = true
      · rw [show collectNamespaces (x :: rest) = collectNamespaces rest from by
          simp [collectNamespaces, hs]] at hok
        exact ih js hok hrestnodup hmem'
      · have hs' : skipNamespace x.name = false := by simpa using hs
        simp only [collectNamespaces, hs', Bool.false_eq_true, if_false] at hok
        cases hp : x.podsList with
        | error e => rw [hp] at hok; cases hok
        | ok ps =>
          rw [hp] at hok
          cases hr : collectNamespaces rest with
          | error e => rw [hr] at hok; cases hok
          | ok js' =>
            rw [hr] at hok
            have hjs : namespaceJunits x.name ps ++ js' = js := Except.ok.inj hok
            subst hjs
            rw [List.filter_append]
            have hfa : (namespaceJunits x.name ps).filter
                (fun tc => tc.name == testNameFor nsd.name) = [] := by
              refine List.filter_eq_nil_iff.mpr ?_
              intro tc htc hcontra
              have h1 : tc.name = testNameFor x.name := namespaceJunits_name _ _ tc htc
              have h2 : tc.name = testNameFor nsd.name := beq_iff_eq.mp hcontra
              exact hne (testNameFor_inj (h1 ▸ h2))
            rw [hfa, List.nil_append]
            exact ih js' hr hrestnodup hmem'

theorem collectData_flake_pair_witness :
    collectNamespaces [scenarioNamespace] =
        .ok (namespaceJunits "kube-foo" [scenarioPod] ++ []) ∧
      ([scenarioNamespace].map NamespaceData.name).Nodup ∧
      scenarioNamespace ∈ [scenarioNamespace] ∧
      skipNamespace scenarioNamespace.name = false ∧
      scenarioNamespace.podsList = .ok [scenarioPod] ∧
      (namespaceJunits "kube-foo" [scenarioPod] ++ []).filter
          (fun (tc : JUnitTestCase) => tc.name == testNameFor scenarioNamespace.name) =
        (if ([scenarioPod].filterMap (checkPod scenarioNamespace.name)).isEmpty then
          [{ name := testNameFor scenarioNamespace.name }]
        else
          [ { name := testNameFor scenarioNamespace.name,
              systemOut := String.intercalate "\n"
                ([scenarioPod].filterMap (checkPod scenarioNamespace.name)),
              failureOutput :=
                some (String.intercalate "\n"
                  ([scenarioPod].filterMap (checkPod scenarioNamespace.name))) },
            { name := testNameFor scenarioNamespace.name }]) :=
  ⟨rfl, by simp, by simp, rfl, rfl,
    collectData_flake_pair [scenarioNamespace]
      (namespaceJunits "kube-foo" [scenarioPod] ++ []) scenarioNamespace [scenarioPod]
      rfl (by simp) (by simp) rfl rfl⟩
